import Mathlib

/-
Verification of the request-dispatch engine of the Advanced Layer 7 Stress
Test Tool (src/stress-test.js), via a shallow embedding in Lean 4.

Time is modelled as a natural-number clock passed explicitly to every
operation that reads Date.now(); latencies are natural numbers of
milliseconds (the source computes a numeric millisecond value; the claims
only compare, add, and take min/max of latencies, which Nat preserves);
JavaScript strings are Lean Strings; a JS Error carries an optional code
and an optional message.  Fallible operations are modelled by passing the
outcome of the wrapped network operation in as data.
-/

/-- The three circuit-breaker states of the CircuitBreaker class
(src/stress-test.js line 61, 70, 91, 94, 105). -/
inductive CBState
  | CLOSED
  | OPEN
  | HALF_OPEN
deriving DecidableEq, Repr

/-- The mutable fields of the CircuitBreaker class together with its
configuration (src/stress-test.js lines 54-63): failCount, successCount,
threshold, timeout (the open duration in ms), halfOpenRequests, state and
nextAttempt (the timestamp at which OPEN may transition to HALF_OPEN). -/
structure CircuitBreaker where
  failCount : Nat
  successCount : Nat
  threshold : Nat
  timeout : Nat
  halfOpenRequests : Nat
  state : CBState
  nextAttempt : Nat
deriving DecidableEq, Repr

/-- The constructor of CircuitBreaker (src/stress-test.js lines 55-63):
counters at 0, state CLOSED, nextAttempt 0. -/
def CircuitBreaker.init (threshold timeout halfOpenRequests : Nat) : CircuitBreaker :=
  { failCount := 0
    successCount := 0
    threshold := threshold
    timeout := timeout
    halfOpenRequests := halfOpenRequests
    state := CBState.CLOSED
    nextAttempt := 0 }

/-- CircuitBreaker.reset (src/stress-test.js lines 102-106): both counters
to 0, state to CLOSED; nextAttempt is left alone. -/
def CircuitBreaker.reset (b : CircuitBreaker) : CircuitBreaker :=
  { b with failCount := 0, successCount := 0, state := CBState.CLOSED }

/-- The entry check of CircuitBreaker.execute (src/stress-test.js lines
66-72), taken at time now: when the state is OPEN and now is before
nextAttempt the call is rejected (none) and the breaker is untouched;
when the state is OPEN and now has reached nextAttempt the breaker moves
to HALF_OPEN with its success counter reset to 0; otherwise the breaker
passes the call through unchanged. -/
def CircuitBreaker.gate (b : CircuitBreaker) (now : Nat) : Option CircuitBreaker :=
  if b.state = CBState.OPEN then
    if now < b.nextAttempt then none
    else some { b with state := CBState.HALF_OPEN, successCount := 0 }
  else some b

/-- The bookkeeping CircuitBreaker.execute performs after the wrapped
operation has run (src/stress-test.js lines 74-99).  fnOk says whether the
awaited operation succeeded.  On success in HALF_OPEN the success counter
is incremented and, once it reaches halfOpenRequests, reset() fires; on
success in any other state the failure counter is decremented, floored at
0 (Math.max(0, failCount - 1) is Nat subtraction).  On failure the failure
counter is incremented; from HALF_OPEN, or once the counter reaches the
threshold, the breaker opens with nextAttempt = now + timeout. -/
def CircuitBreaker.settle (b : CircuitBreaker) (now : Nat) (fnOk : Bool) : CircuitBreaker :=
  if fnOk then
    if b.state = CBState.HALF_OPEN then
      let b1 := { b with successCount := b.successCount + 1 }
      if b1.halfOpenRequests ≤ b1.successCount then b1.reset else b1
    else
      { b with failCount := b.failCount - 1 }
  else
    let b1 := { b with failCount := b.failCount + 1 }
    if b1.state = CBState.HALF_OPEN then
      { b1 with state := CBState.OPEN, nextAttempt := now + b1.timeout }
    else if b1.threshold ≤ b1.failCount then
      { b1 with state := CBState.OPEN, nextAttempt := now + b1.timeout }
    else b1

/-- What one call to CircuitBreaker.execute produces from the point of view of the caller: a synthetic circuit-open rejection (the wrapped operation
is never invoked), the own success of the operation, or its own failure rethrown. -/
inductive ExecResult
  | rejectedOpen
  | ok
  | errored
deriving DecidableEq, Repr

/-- One call to CircuitBreaker.execute (src/stress-test.js lines 65-100)
at time now, where fnOk is the outcome the wrapped operation would
produce if invoked.  The rejection branch returns the breaker unchanged
and never consults fnOk. -/
def CircuitBreaker.execute (b : CircuitBreaker) (now : Nat) (fnOk : Bool) :
    CircuitBreaker × ExecResult :=
  match b.gate now with
  | none => (b, ExecResult.rejectedOpen)
  | some b1 => (b1.settle now fnOk, if fnOk then ExecResult.ok else ExecResult.errored)

/-- A sequence of consecutive failing calls to CircuitBreaker.execute,
one per timestamp in the list. -/
def runFailures (b : CircuitBreaker) (times : List Nat) : CircuitBreaker :=
  times.foldl (fun b t => (b.execute t false).1) b

/-- A sequence of consecutive successful calls to CircuitBreaker.execute,
one per timestamp in the list. -/
def runSuccesses (b : CircuitBreaker) (times : List Nat) : CircuitBreaker :=
  times.foldl (fun b t => (b.execute t true).1) b

example :
    (runFailures (CircuitBreaker.init 3 100 2) [1, 2]).state = CBState.CLOSED := by decide

example :
    (runFailures (CircuitBreaker.init 3 100 2) [1, 2, 7]).state = CBState.OPEN := by decide

example :
    (runFailures (CircuitBreaker.init 3 100 2) [1, 2, 7]).nextAttempt = 107 := by decide

example :
    (CircuitBreaker.execute ⟨3, 0, 3, 100, 2, CBState.OPEN, 107⟩ 50 true).2
      = ExecResult.rejectedOpen := by decide

example :
    (runSuccesses ⟨3, 0, 3, 100, 2, CBState.HALF_OPEN, 107⟩ [110, 111]).state
      = CBState.CLOSED := by decide

/-- A JavaScript Error as sendRequest observes it: an optional code
property and an optional message (none models undefined). -/
structure JsError where
  code : Option String
  message : Option String
deriving DecidableEq, Repr

/-- The JavaScript short-circuiting logical-or on strings (an empty string
is falsy, like undefined). -/
def jsOr (a b : String) : String := if a = "" then b else a

/-- The error signature used to key the error histogram
(src/stress-test.js lines 216-217): err.code, else the first 20
characters of err.message, else the literal UNKNOWN.  An absent (or
empty, hence falsy) code and an absent or empty message each fall
through, exactly as the JS truthiness chain does.  String.take counts
characters, which on the ASCII error strings involved agrees with
the JavaScript substring(0, 20). -/
def errKey (e : JsError) : String :=
  jsOr (e.code.getD "") (jsOr ((e.message.getD "").take 20) "UNKNOWN")

/-- The synthetic error thrown by the rejection branch of the breaker
(src/stress-test.js line 68): no code, the fixed message. -/
def circuitOpenError : JsError :=
  { code := none, message := some "Circuit OPEN - Waiting for reconnect" }

/-- The stats object of main (src/stress-test.js lines 480-493).
Latency values are Nat milliseconds; minLatency lives in WithTop Nat so
that its JavaScript initial value Infinity is representable as the top
element.  The open-ended JS objects used as histograms become total
functions from key to count. -/
structure Stats where
  success : Nat
  failed : Nat
  totalLatency : Nat
  minLatency : WithTop Nat
  maxLatency : Nat
  statusCodes : Nat → Nat
  protocols : String → Nat
  errors : String → Nat
  attackSent : Nat
  attackReceived : Nat
  attackErrors : Nat
  attackStatus : Nat → Nat

/-- The initial stats of a run (src/stress-test.js lines 480-493): all
counters 0, minLatency Infinity, maxLatency 0, empty histograms. -/
def initialStats : Stats :=
  { success := 0
    failed := 0
    totalLatency := 0
    minLatency := ⊤
    maxLatency := 0
    statusCodes := fun _ => 0
    protocols := fun _ => 0
    errors := fun _ => 0
    attackSent := 0
    attackReceived := 0
    attackErrors := 0
    attackStatus := fun _ => 0 }

/-- The stats updates performed on the success path of the wrapped
operation in sendRequest (src/stress-test.js lines 203-209): success
count, latency sum, status-code and protocol histograms, and the
conditional downward/upward min/max latency updates. -/
def recordSuccess (s : Stats) (proto : String) (statusCode latency : Nat) : Stats :=
  { s with
    success := s.success + 1
    totalLatency := s.totalLatency + latency
    statusCodes := fun c => if c = statusCode then s.statusCodes c + 1 else s.statusCodes c
    protocols := fun p => if p = proto then s.protocols p + 1 else s.protocols p
    minLatency := if (latency : WithTop Nat) < s.minLatency then (latency : WithTop Nat)
                  else s.minLatency
    maxLatency := if s.maxLatency < latency then latency else s.maxLatency }

/-- The stats updates performed when sendRequest propagates a failure
(src/stress-test.js lines 215-217): the failed counter and the error
histogram at the signature of the propagated error. -/
def recordFailure (s : Stats) (e : JsError) : Stats :=
  { s with
    failed := s.failed + 1
    errors := fun k => if k = errKey e then s.errors k + 1 else s.errors k }

/-- What the wrapped network operation of one protocol iteration of
sendRequest would produce if invoked: a response (status code and
latency after the body is drained) or a thrown error. -/
inductive AttemptResult
  | success (statusCode latency : Nat)
  | failure (e : JsError)
deriving DecidableEq, Repr

/-- What the breaker.execute call of one iteration yields to the surrounding
try/catch of sendRequest: the value of the operation, or a thrown error
(either the synthetic circuit-open rejection or the own error of the operation). -/
inductive CallResult
  | ok (statusCode latency : Nat)
  | err (e : JsError)
deriving DecidableEq, Repr

/-- The breaker.execute call of one iteration as sendRequest sees it: gate at
time now, then either the synthetic circuit-open error with the breaker
untouched, or the outcome of the operation with the breaker settled on it. -/
def callOutcome (b : CircuitBreaker) (now : Nat) (o : AttemptResult) :
    CircuitBreaker × CallResult :=
  match b.gate now with
  | none => (b, CallResult.err circuitOpenError)
  | some b1 =>
    match o with
    | AttemptResult.success c l => (b1.settle now true, CallResult.ok c l)
    | AttemptResult.failure e => (b1.settle now false, CallResult.err e)

/-- The value a call to sendRequest settles to: the first successful
response object of that attempt, a propagated error, or undefined (the
fall-through return when the protocol list is empty). -/
inductive SendOutcome
  | ok (statusCode latency : Nat) (proto : String)
  | err (e : JsError)
  | undef
deriving DecidableEq, Repr

/-- The protocol loop of sendRequest (src/stress-test.js lines 164-221),
with the per-iteration operation outcomes supplied as data paired with
the protocols.  lastP is the value of protocols[protocols.length - 1],
which the source compares against on every iteration.  A successful
iteration records its stats and returns immediately; a throwing
iteration either records one run-level failure and propagates (when the
protocol of the iteration equals lastP) or silently continues. -/
def sendLoop (now : Nat) (lastP : String) :
    List (String × AttemptResult) → CircuitBreaker → Stats →
      CircuitBreaker × Stats × SendOutcome
  | [], b, s => (b, s, SendOutcome.undef)
  | (p, o) :: rest, b, s =>
    match callOutcome b now o with
    | (b1, CallResult.ok c l) => (b1, recordSuccess s p c l, SendOutcome.ok c l p)
    | (b1, CallResult.err e) =>
      if p = lastP then (b1, recordFailure s e, SendOutcome.err e)
      else sendLoop now lastP rest b1 s

/-- sendRequest (src/stress-test.js lines 163-222): the loop over the
protocol list, with outcomes as the per-iteration oracle. -/
def sendRequest (now : Nat) (b : CircuitBreaker) (s : Stats)
    (protocols : List String) (outcomes : List AttemptResult) :
    CircuitBreaker × Stats × SendOutcome :=
  sendLoop now (protocols.getLastD "") (protocols.zip outcomes) b s

/-- Whether every iteration of the loop would throw (operation failures
and circuit-open rejections alike), threading the breaker exactly as the
loop does. -/
def allFail (now : Nat) : List AttemptResult → CircuitBreaker → Bool
  | [], _ => true
  | o :: rest, b =>
    match callOutcome b now o with
    | (_, CallResult.ok _ _) => false
    | (b1, CallResult.err _) => allFail now rest b1

/-- The position and response of the first iteration whose
breaker.execute call succeeds, threading the breaker exactly as the loop
does; none when every iteration throws. -/
def firstSuccess (now : Nat) : List AttemptResult → CircuitBreaker → Option (Nat × Nat × Nat)
  | [], _ => none
  | o :: rest, b =>
    match callOutcome b now o with
    | (_, CallResult.ok c l) => some (0, c, l)
    | (b1, CallResult.err _) =>
      (firstSuccess now rest b1).map (fun x => (x.1 + 1, x.2.1, x.2.2))

example :
    (sendRequest 0 (CircuitBreaker.init 15 8000 5) initialStats
      ["h2", "h1.1"]
      [AttemptResult.failure ⟨some "ECONNRESET", none⟩, AttemptResult.success 200 5]).2.2
      = SendOutcome.ok 200 5 "h1.1" := by rfl

example :
    (sendRequest 0 (CircuitBreaker.init 15 8000 5) initialStats
      ["h2", "h2"]
      [AttemptResult.failure ⟨some "ECONNRESET", none⟩, AttemptResult.success 200 5]).2.2
      = SendOutcome.err ⟨some "ECONNRESET", none⟩ := by rfl

example :
    allFail 0 [AttemptResult.failure ⟨some "ECONNRESET", none⟩, AttemptResult.success 200 5]
      (CircuitBreaker.init 15 8000 5) = false := by rfl

set_option maxRecDepth 4096 in
example : errKey circuitOpenError = "Circuit OPEN - Waiti" := by rfl

/-- Whether pat occurs as a contiguous substring of the character list,
the containment test behind the JavaScript String.prototype.includes. -/
def charsContain (pat : List Char) : List Char → Bool
  | [] => pat.isEmpty
  | c :: rest => pat.isPrefixOf (c :: rest) || charsContain pat rest

/-- The JavaScript s.includes(pat): substring containment. -/
def strIncludes (s pat : String) : Bool := charsContain pat.data s.data

/-- Insertion into a JavaScript Set modelled as a duplicate-free list in
insertion order (Array.from preserves that order). -/
def setAdd (l : List String) (x : String) : List String :=
  if x ∈ l then l else l ++ [x]

/-- What the probe handshake of detectProtocols yields: a thrown error
(timeout, connection refused, TLS failure — all before any protocol is
added to the set), or a response whose alt-svc header is an optional
string. -/
inductive ProbeResult
  | failure
  | success (altSvc : Option String)
deriving DecidableEq, Repr

/-- The h3 advertisement test of detectProtocols (src/stress-test.js line
151): headers[alt-svc]?.includes(h3), false when the header is absent. -/
def altSvcAdvertisesH3 : Option String → Bool
  | none => false
  | some v => strIncludes v "h3"

/-- detectProtocols (src/stress-test.js lines 133-161) as a function of
the probe outcome: on a successful handshake, add h3 when the alt-svc
header advertises it, then h2, then h1.1; on any failure the catch block
adds h1.1 to the still-empty set.  The function is total — every probe
outcome, including every failure, yields a list, which is how the source
never throws to its caller. -/
def detectProtocols (r : ProbeResult) : List String :=
  match r with
  | ProbeResult.failure => setAdd [] "h1.1"
  | ProbeResult.success altSvc =>
    let s1 := if altSvcAdvertisesH3 altSvc then setAdd [] "h3" else []
    let s2 := setAdd s1 "h2"
    setAdd s2 "h1.1"

/-- A value the lookup protocolMap[token] can produce besides undefined:
one of the three own protocol strings of the object literal, or a member
inherited from Object.prototype — the literal at src/stress-test.js line
467 is a plain object, so looking up a key such as toString walks the
prototype chain and yields an inherited function (or, for the key
marked proto below, the prototype object itself), which is truthy. -/
inductive ProtoEntry
  | protoName (s : String)
  | inherited (key : String)
deriving DecidableEq, Repr

/-- The property names every plain object literal inherits from
Object.prototype in Node: looking any of these up on the override table
yields a truthy member instead of undefined. -/
def objectPrototypeKeys : List String :=
  ["constructor", "hasOwnProperty", "isPrototypeOf", "propertyIsEnumerable",
   "toLocaleString", "toString", "valueOf", "__proto__", "__defineGetter__",
   "__defineSetter__", "__lookupGetter__", "__lookupSetter__"]

/-- The protocol override lookup of main (src/stress-test.js line 467):
the plain object literal maps its own keys 1.1, 2 and 3 to the internal
protocol names; every other key falls through to the prototype chain,
yielding the inherited Object.prototype member for the names in
objectPrototypeKeys and undefined (none) for everything else. -/
def protocolMap (p : String) : Option ProtoEntry :=
  if p = "1.1" then some (ProtoEntry.protoName "h1.1")
  else if p = "2" then some (ProtoEntry.protoName "h2")
  else if p = "3" then some (ProtoEntry.protoName "h3")
  else if p ∈ objectPrototypeKeys then some (ProtoEntry.inherited p)
  else none

/-- Splitting a character list at every occurrence of a separator
character, the semantics of the JavaScript split with a one-character
separator: n separators yield n + 1 (possibly empty) fields, and the
empty string yields one empty field. -/
def splitFields (sep : Char) : List Char → List Char → List (List Char)
  | [], acc => [acc.reverse]
  | c :: rest, acc =>
    if c = sep then acc.reverse :: splitFields sep rest []
    else splitFields sep rest (c :: acc)

/-- The JavaScript s.split with a one-character separator. -/
def jsSplit (s : String) (sep : Char) : List String :=
  (splitFields sep s.data []).map (fun cs => ⟨cs⟩)

/-- The JavaScript s.trim(): strip leading and trailing whitespace. -/
def jsTrim (s : String) : String :=
  ⟨((s.data.dropWhile Char.isWhitespace).reverse.dropWhile Char.isWhitespace).reverse⟩

/-- The protocol override parse of main (src/stress-test.js line 468):
split on commas, trim and map each token through the protocolMap
lookup, and drop the falsy results with filter(Boolean) — undefined
(none) is dropped, while the own protocol strings and the inherited
Object.prototype members are all truthy and kept, so filtering on
isSome is exactly JS truthiness here. -/
def parseProtocols (s : String) : List ProtoEntry :=
  (((jsSplit s ',').map (fun p => protocolMap (jsTrim p))).filter Option.isSome).map
    (fun o => o.getD (ProtoEntry.protoName ""))

/-- The protocol list main proceeds with after an override parse
(src/stress-test.js lines 466-477): the parsed list, or [h1.1] when the
parse came up empty. -/
def mainProtocols (s : String) : List ProtoEntry :=
  let ps := parseProtocols s
  if ps.length = 0 then [ProtoEntry.protoName "h1.1"] else ps

example :
    parseProtocols "1.1, x,3" = [ProtoEntry.protoName "h1.1", ProtoEntry.protoName "h3"] := by
  decide

example : mainProtocols "9,," = [ProtoEntry.protoName "h1.1"] := by decide

example : parseProtocols "toString" = [ProtoEntry.inherited "toString"] := by decide

/-- How one attack stream of rapidResetAttack ends (src/stress-test.js
lines 242-265): cancelled before any event, a response event with a
status, or an error event. -/
inductive StreamOutcome
  | cancelled
  | responded (status : Nat)
  | errored
deriving DecidableEq, Repr

/-- The stats effect of issuing one attack stream (src/stress-test.js
lines 242-265): attackSent is always incremented; a response event adds
to attackReceived and the attack status histogram; an error event adds
to attackErrors. -/
def streamStep (s : Stats) (o : StreamOutcome) : Stats :=
  let s1 := { s with attackSent := s.attackSent + 1 }
  match o with
  | StreamOutcome.cancelled => s1
  | StreamOutcome.responded st =>
    { s1 with
      attackReceived := s1.attackReceived + 1
      attackStatus := fun k => if k = st then s1.attackStatus k + 1 else s1.attackStatus k }
  | StreamOutcome.errored => { s1 with attackErrors := s1.attackErrors + 1 }

/-- How one connection iteration of rapidResetAttack goes: the connect
(or the batch issuing) throws, counting one attack error, or the
connection carries its batch of streams (50 in the source). -/
inductive ConnOutcome
  | connectFailed
  | connected (streams : List StreamOutcome)
deriving DecidableEq, Repr

/-- The stats effect of one iteration of the rapidResetAttack while-loop
(src/stress-test.js lines 228-276): the stream-open-then-cancel batch
over one HTTP/2 connection, or one attack error when the connection
fails. -/
def rapidResetBatch (s : Stats) (c : ConnOutcome) : Stats :=
  match c with
  | ConnOutcome.connectFailed => { s with attackErrors := s.attackErrors + 1 }
  | ConnOutcome.connected streams => streams.foldl streamStep s

/-- The workload main runs for a given attack-mode selector
(src/stress-test.js lines 518, 554-565): the selector none runs the
standard load test (no attack routine); every other selector value runs
rapidResetAttack — the else branch never inspects the selector again. -/
def attackRoutine (attackMode : String) : Option (Stats → ConnOutcome → Stats) :=
  if attackMode = "none" then none else some rapidResetBatch

/-- Connections opened by one invocation of the operation sendRequest
wraps (src/stress-test.js lines 166-211): a client is constructed
unconditionally at the top of the operation, on every outcome. -/
def attemptOpensConnection : AttemptResult → Nat := fun _ => 1

/-- Connections closed by one invocation of the operation sendRequest
wraps: the only client.close() call (src/stress-test.js line 198) sits
after the request and the body drain on the straight-line success path;
the operation has no try/finally, so a thrown request, timeout or drain
error skips it. -/
def attemptClosesConnection : AttemptResult → Nat
  | AttemptResult.success _ _ => 1
  | AttemptResult.failure _ => 0

theorem gate_closed (b : CircuitBreaker) (now : Nat) (h : b.state = CBState.CLOSED) :
    b.gate now = some b := by
  simp [CircuitBreaker.gate, h]

theorem gate_halfopen (b : CircuitBreaker) (now : Nat) (h : b.state = CBState.HALF_OPEN) :
    b.gate now = some b := by
  simp [CircuitBreaker.gate, h]

theorem gate_open_reject (b : CircuitBreaker) (now : Nat) (h : b.state = CBState.OPEN)
    (hlt : now < b.nextAttempt) : b.gate now = none := by
  simp [CircuitBreaker.gate, h, hlt]

theorem gate_open_pass (b : CircuitBreaker) (now : Nat) (h : b.state = CBState.OPEN)
    (hle : b.nextAttempt ≤ now) :
    b.gate now = some { b with state := CBState.HALF_OPEN, successCount := 0 } := by
  simp [CircuitBreaker.gate, h, Nat.not_lt.mpr hle]

theorem settle_closed_fail_low (b : CircuitBreaker) (now : Nat)
    (h : b.state = CBState.CLOSED) (hlt : b.failCount + 1 < b.threshold) :
    b.settle now false = { b with failCount := b.failCount + 1 } := by
  have hn : ¬ (b.threshold ≤ b.failCount + 1) := by omega
  simp [CircuitBreaker.settle, h, hn]

theorem settle_closed_fail_trip (b : CircuitBreaker) (now : Nat)
    (h : b.state = CBState.CLOSED) (hge : b.threshold ≤ b.failCount + 1) :
    b.settle now false =
      { b with failCount := b.failCount + 1, state := CBState.OPEN,
               nextAttempt := now + b.timeout } := by
  simp [CircuitBreaker.settle, h, hge]

theorem settle_closed_success (b : CircuitBreaker) (now : Nat)
    (h : b.state = CBState.CLOSED) :
    b.settle now true = { b with failCount := b.failCount - 1 } := by
  simp [CircuitBreaker.settle, h]

theorem settle_halfopen_success_low (b : CircuitBreaker) (now : Nat)
    (h : b.state = CBState.HALF_OPEN) (hlt : b.successCount + 1 < b.halfOpenRequests) :
    b.settle now true = { b with successCount := b.successCount + 1 } := by
  have hn : ¬ (b.halfOpenRequests ≤ b.successCount + 1) := by omega
  simp [CircuitBreaker.settle, h, hn]

theorem settle_halfopen_success_done (b : CircuitBreaker) (now : Nat)
    (h : b.state = CBState.HALF_OPEN) (hge : b.halfOpenRequests ≤ b.successCount + 1) :
    b.settle now true =
      { b with failCount := 0, successCount := 0, state := CBState.CLOSED } := by
  simp [CircuitBreaker.settle, CircuitBreaker.reset, h, hge]

theorem settle_halfopen_fail (b : CircuitBreaker) (now : Nat)
    (h : b.state = CBState.HALF_OPEN) :
    b.settle now false =
      { b with failCount := b.failCount + 1, state := CBState.OPEN,
               nextAttempt := now + b.timeout } := by
  simp [CircuitBreaker.settle, h]

theorem execute_open_rejected (b : CircuitBreaker) (now : Nat) (r : Bool)
    (h : b.state = CBState.OPEN) (hlt : now < b.nextAttempt) :
    b.execute now r = (b, ExecResult.rejectedOpen) := by
  simp [CircuitBreaker.execute, gate_open_reject b now h hlt]

theorem execute_closed_fail_low (b : CircuitBreaker) (now : Nat)
    (h : b.state = CBState.CLOSED) (hlt : b.failCount + 1 < b.threshold) :
    b.execute now false = ({ b with failCount := b.failCount + 1 }, ExecResult.errored) := by
  simp [CircuitBreaker.execute, gate_closed b now h, settle_closed_fail_low b now h hlt]

theorem execute_closed_fail_trip (b : CircuitBreaker) (now : Nat)
    (h : b.state = CBState.CLOSED) (hge : b.threshold ≤ b.failCount + 1) :
    b.execute now false =
      ({ b with failCount := b.failCount + 1, state := CBState.OPEN,
                nextAttempt := now + b.timeout }, ExecResult.errored) := by
  simp [CircuitBreaker.execute, gate_closed b now h, settle_closed_fail_trip b now h hge]

theorem execute_closed_success (b : CircuitBreaker) (now : Nat)
    (h : b.state = CBState.CLOSED) :
    b.execute now true = ({ b with failCount := b.failCount - 1 }, ExecResult.ok) := by
  simp [CircuitBreaker.execute, gate_closed b now h, settle_closed_success b now h]

theorem runFailures_closed (times : List Nat) (b : CircuitBreaker)
    (h : b.state = CBState.CLOSED) (hlen : b.failCount + times.length < b.threshold) :
    runFailures b times = { b with failCount := b.failCount + times.length } := by
  induction times generalizing b with
  | nil => simp [runFailures]
  | cons t ts ih =>
    have hstep : b.failCount + 1 < b.threshold := by
      simp only [List.length_cons] at hlen; omega
    have h1 := execute_closed_fail_low b t h hstep
    have h2 := ih { b with failCount := b.failCount + 1 } h
      (by simp only [List.length_cons] at hlen; simpa using by omega)
    simp only [runFailures, List.foldl_cons] at *
    rw [h1] at *
    simp only [h2]
    simp [List.length_cons]
    omega

theorem runSuccesses_halfopen (times : List Nat) (b : CircuitBreaker)
    (h : b.state = CBState.HALF_OPEN) (hne : times ≠ [])
    (hsum : b.successCount + times.length = b.halfOpenRequests) :
    runSuccesses b times =
      { b with failCount := 0, successCount := 0, state := CBState.CLOSED } := by
  induction times generalizing b with
  | nil => exact absurd rfl hne
  | cons t ts ih =>
    have hgate := gate_halfopen b t h
    rcases List.eq_nil_or_concat ts with hts | _
    · subst hts
      have hge : b.halfOpenRequests ≤ b.successCount + 1 := by
        simp only [List.length_cons, List.length_nil] at hsum; omega
      have hs := settle_halfopen_success_done b t h hge
      simp [runSuccesses, CircuitBreaker.execute, hgate, hs]
    · have hts : ts ≠ [] := by
        rename_i hc; rcases hc with ⟨l, a, rfl⟩; simp
      have hlt : b.successCount + 1 < b.halfOpenRequests := by
        simp only [List.length_cons] at hsum
        have : ts.length ≥ 1 := by
          cases ts with
          | nil => exact absurd rfl hts
          | cons a l => simp
        omega
      have hs := settle_halfopen_success_low b t h hlt
      have hrec := ih { b with successCount := b.successCount + 1 } h hts
        (by simp only [List.length_cons] at hsum; simpa using by omega)
      simp only [runSuccesses, List.foldl_cons, CircuitBreaker.execute, hgate, hs] at *
      exact hrec

/-- Claim C1: starting from the initial CLOSED state, after exactly
threshold consecutive failed calls to CircuitBreaker.execute (the
threshold-th at time tlast) and no intervening successes, the state is
still CLOSED one call short of the threshold, becomes OPEN with
nextAttempt = tlast + timeout at the threshold-th, and every execute
call made at a time now before nextAttempt returns the breaker
unchanged (state still OPEN) with the synthetic rejectedOpen result,
for either value of the would-be operation outcome r — so the wrapped
operation is never invoked. -/
theorem claim_C1 (threshold timeout hor : Nat) (times : List Nat) (tlast now : Nat)
    (r : Bool) (hlen : times.length + 1 = threshold) :
    (runFailures (CircuitBreaker.init threshold timeout hor) times).state = CBState.CLOSED
    ∧ ((runFailures (CircuitBreaker.init threshold timeout hor) times).execute tlast false).1.state
        = CBState.OPEN
    ∧ ((runFailures (CircuitBreaker.init threshold timeout hor) times).execute tlast false).1.nextAttempt
        = tlast + timeout
    ∧ (now < tlast + timeout →
        ((runFailures (CircuitBreaker.init threshold timeout hor) times).execute tlast false).1.execute now r
          = (((runFailures (CircuitBreaker.init threshold timeout hor) times).execute tlast false).1,
             ExecResult.rejectedOpen)) := by
  have hrf := runFailures_closed times (CircuitBreaker.init threshold timeout hor) rfl
    (by simp [CircuitBreaker.init]; omega)
  have hstate : (runFailures (CircuitBreaker.init threshold timeout hor) times).state
      = CBState.CLOSED := by rw [hrf]; rfl
  have htrip := execute_closed_fail_trip
    (runFailures (CircuitBreaker.init threshold timeout hor) times) tlast hstate
    (by rw [hrf]; simp [CircuitBreaker.init]; omega)
  refine ⟨hstate, ?_, ?_, ?_⟩
  · rw [htrip]
  · rw [htrip, hrf]
    simp [CircuitBreaker.init]
  · intro hnow
    refine execute_open_rejected _ now r ?_ ?_
    · rw [htrip]
    · rw [htrip, hrf]
      simpa [CircuitBreaker.init] using hnow

/-- Claim C1 witness at threshold = 2, timeout = 9, times = [5],
tlast = 7, now = 10. -/
theorem claim_C1_witness :
    CircuitBreaker.execute ⟨2, 0, 2, 9, 3, CBState.OPEN, 16⟩ 10 true
      = (⟨2, 0, 2, 9, 3, CBState.OPEN, 16⟩, ExecResult.rejectedOpen) := by
  have h := claim_C1 2 9 3 [5] 7 10 true (by decide)
  exact h.2.2.2 (by decide)

/-- Claim C3: a successful execute call while the breaker is CLOSED
decrements the failure counter by exactly 1 when it is positive, keeps
it at 0 when it is already 0 (Nat subtraction floors at 0), and leaves
the state CLOSED — it never by itself changes the breaker state. -/
theorem claim_C3 (b : CircuitBreaker) (now : Nat) (h : b.state = CBState.CLOSED) :
    b.execute now true = ({ b with failCount := b.failCount - 1 }, ExecResult.ok)
    ∧ (b.execute now true).1.state = CBState.CLOSED
    ∧ (b.failCount = 0 → (b.execute now true).1.failCount = 0)
    ∧ (0 < b.failCount → (b.execute now true).1.failCount + 1 = b.failCount) := by
  have he := execute_closed_success b now h
  refine ⟨he, ?_, ?_, ?_⟩
  · rw [he]; exact h
  · intro h0; rw [he]; simp [h0]
  · intro h0; rw [he]; simp; omega

/-- Claim C3 witness: success in CLOSED at failCount = 4 and at
failCount = 0. -/
theorem claim_C3_witness :
    CircuitBreaker.execute ⟨4, 0, 10, 5000, 3, CBState.CLOSED, 0⟩ 42 true
      = (⟨3, 0, 10, 5000, 3, CBState.CLOSED, 0⟩, ExecResult.ok)
    ∧ (CircuitBreaker.execute ⟨0, 0, 10, 5000, 3, CBState.CLOSED, 0⟩ 42 true).1.failCount = 0 := by
  refine ⟨?_, ?_⟩
  · exact (claim_C3 ⟨4, 0, 10, 5000, 3, CBState.CLOSED, 0⟩ 42 rfl).1
  · exact (claim_C3 ⟨0, 0, 10, 5000, 3, CBState.CLOSED, 0⟩ 42 rfl).2.2.1 rfl

/-- Claim C2: (1) from OPEN, an execute call at a time that has reached
nextAttempt passes the gate with the breaker moved to HALF_OPEN and its
success counter reset to 0, and the call is let through — its result is
the own ok or errored of the wrapped operation, never the synthetic
rejection, and the final breaker is the settled HALF_OPEN breaker;
(2) from HALF_OPEN with the success counter at 0, halfOpenRequests
consecutive successful calls (halfOpenRequests positive) leave the
breaker CLOSED with both the failure and success counters 0;
(3) from HALF_OPEN, a single failed call moves the breaker straight back
to OPEN with a fresh nextAttempt = now + timeout. -/
theorem claim_C2 (bOpen bHalf bFail : CircuitBreaker) (now nowF : Nat) (r : Bool)
    (times : List Nat) :
    (bOpen.state = CBState.OPEN → bOpen.nextAttempt ≤ now →
      bOpen.gate now = some { bOpen with state := CBState.HALF_OPEN, successCount := 0 }
      ∧ (bOpen.execute now r).2 = (if r then ExecResult.ok else ExecResult.errored)
      ∧ (bOpen.execute now r).2 ≠ ExecResult.rejectedOpen
      ∧ (bOpen.execute now r).1
          = CircuitBreaker.settle
              { bOpen with state := CBState.HALF_OPEN, successCount := 0 } now r)
    ∧ (bHalf.state = CBState.HALF_OPEN → bHalf.successCount = 0 →
        times.length = bHalf.halfOpenRequests → 0 < bHalf.halfOpenRequests →
        (runSuccesses bHalf times).state = CBState.CLOSED
        ∧ (runSuccesses bHalf times).failCount = 0
        ∧ (runSuccesses bHalf times).successCount = 0)
    ∧ (bFail.state = CBState.HALF_OPEN →
        bFail.execute nowF false
          = ({ bFail with
                failCount := bFail.failCount + 1
                state := CBState.OPEN
                nextAttempt := nowF + bFail.timeout }, ExecResult.errored)) := by
  refine ⟨?_, ?_, ?_⟩
  · intro h hle
    have hg := gate_open_pass bOpen now h hle
    refine ⟨hg, ?_, ?_, ?_⟩
    · simp [CircuitBreaker.execute, hg]
    · simp [CircuitBreaker.execute, hg]
      cases r <;> simp
    · simp [CircuitBreaker.execute, hg]
  · intro h hsc hlen hpos
    have hne : times ≠ [] := by
      cases times with
      | nil => simp at hlen; omega
      | cons a l => simp
    have hrs := runSuccesses_halfopen times bHalf h hne (by omega)
    rw [hrs]
    exact ⟨rfl, rfl, rfl⟩
  · intro h
    have hg := gate_halfopen bFail nowF h
    have hs := settle_halfopen_fail bFail nowF h
    simp [CircuitBreaker.execute, hg, hs]

/-- Claim C2 witness: a breaker with threshold 5, timeout 100 and
halfOpenRequests 2 that is OPEN until time 50, probed at time 60, then
driven to CLOSED by two successes, and a HALF_OPEN breaker failing at
time 70. -/
theorem claim_C2_witness :
    CircuitBreaker.gate ⟨5, 3, 5, 100, 2, CBState.OPEN, 50⟩ 60
      = some ⟨5, 0, 5, 100, 2, CBState.HALF_OPEN, 50⟩
    ∧ (runSuccesses ⟨5, 0, 5, 100, 2, CBState.HALF_OPEN, 50⟩ [61, 62]).state = CBState.CLOSED
    ∧ CircuitBreaker.execute ⟨5, 1, 5, 100, 2, CBState.HALF_OPEN, 50⟩ 70 false
      = (⟨6, 1, 5, 100, 2, CBState.OPEN, 170⟩, ExecResult.errored) := by
  refine ⟨?_, ?_, ?_⟩
  · exact ((claim_C2 ⟨5, 3, 5, 100, 2, CBState.OPEN, 50⟩
      ⟨5, 0, 5, 100, 2, CBState.HALF_OPEN, 50⟩
      ⟨5, 1, 5, 100, 2, CBState.HALF_OPEN, 50⟩ 60 70 true [61, 62]).1 rfl (by decide)).1
  · exact ((claim_C2 ⟨5, 3, 5, 100, 2, CBState.OPEN, 50⟩
      ⟨5, 0, 5, 100, 2, CBState.HALF_OPEN, 50⟩
      ⟨5, 1, 5, 100, 2, CBState.HALF_OPEN, 50⟩ 60 70 true [61, 62]).2.1 rfl rfl rfl
        (by decide)).1
  · exact (claim_C2 ⟨5, 3, 5, 100, 2, CBState.OPEN, 50⟩
      ⟨5, 0, 5, 100, 2, CBState.HALF_OPEN, 50⟩
      ⟨5, 1, 5, 100, 2, CBState.HALF_OPEN, 50⟩ 60 70 true [61, 62]).2.2 rfl

/-- Claim C4 (amended): over a non-empty protocol list whose final
protocol does not also occur at an earlier position, the dispatch loop
propagates a failure exactly when the breaker call of every iteration throws;
when some iteration succeeds first, the loop returns the
response of that iteration labelled with the protocol of that iteration, and the entries after
it are never consulted (truncating the list right after the first
success leaves the whole run unchanged); and a run that returns a
success records no run-level failure: the failed counter and the error
histogram are untouched.  The source claim, quantified over every
non-empty protocol list, is false: see the counterexample. -/
theorem claim_C4 (now : Nat) (b : CircuitBreaker) (s : Stats)
    (ps : List (String × AttemptResult)) (lastP : String)
    (hlast : (ps.map Prod.fst).getLast? = some lastP)
    (hnodup : ∀ q ∈ (ps.map Prod.fst).dropLast, q ≠ lastP) :
    ((∃ e, (sendLoop now lastP ps b s).2.2 = SendOutcome.err e)
        ↔ allFail now (ps.map Prod.snd) b = true)
    ∧ (∀ k c l, firstSuccess now (ps.map Prod.snd) b = some (k, c, l) →
        (sendLoop now lastP ps b s).2.2 = SendOutcome.ok c l ((ps.map Prod.fst).getD k "")
        ∧ sendLoop now lastP (ps.take (k + 1)) b s = sendLoop now lastP ps b s)
    ∧ ((∃ c l p, (sendLoop now lastP ps b s).2.2 = SendOutcome.ok c l p) →
        (sendLoop now lastP ps b s).2.1.failed = s.failed
        ∧ (sendLoop now lastP ps b s).2.1.errors = s.errors) := by
  induction ps generalizing b s with
  | nil => simp at hlast
  | cons hd rest ih =>
    obtain ⟨p, o⟩ := hd
    rcases hco : callOutcome b now o with ⟨b1, cr⟩
    cases cr with
    | ok c l =>
      refine ⟨?_, ?_, ?_⟩
      · simp [sendLoop, allFail, hco]
      · intro k c' l' hfs
        simp only [List.map_cons, firstSuccess, hco, Option.some.injEq, Prod.mk.injEq] at hfs
        obtain ⟨hk, hc, hl⟩ := hfs
        subst hk; subst hc; subst hl
        refine ⟨?_, ?_⟩
        · simp [sendLoop, hco]
        · simp [List.take_succ_cons, sendLoop, hco]
      · intro _
        simp [sendLoop, hco, recordSuccess]
    | err e =>
      by_cases hp : p = lastP
      · have hrest : rest = [] := by
          cases hr : rest with
          | nil => rfl
          | cons r rs =>
            exfalso
            apply hnodup p ?_ hp
            subst hr
            obtain ⟨q, o2⟩ := r
            simp [List.dropLast_cons₂]
        subst hrest
        refine ⟨?_, ?_, ?_⟩
        · simp [sendLoop, allFail, hco, hp]
        · intro k c' l' hfs
          simp [firstSuccess, hco] at hfs
        · intro hok
          simp [sendLoop, hco, hp] at hok
      · have hrestne : rest ≠ [] := by
          intro hr
          subst hr
          simp at hlast
          exact hp hlast
        obtain ⟨q, qs, hqq⟩ : ∃ q qs, rest.map Prod.fst = q :: qs := by
          cases hr : rest with
          | nil => exact absurd hr hrestne
          | cons r rs => exact ⟨r.1, rs.map Prod.fst, by simp⟩
        have hlast2 : (rest.map Prod.fst).getLast? = some lastP := by
          rw [List.map_cons, hqq, List.getLast?_cons_cons] at hlast
          rw [hqq]
          exact hlast
        have hnodup2 : ∀ x ∈ (rest.map Prod.fst).dropLast, x ≠ lastP := by
          intro x hx
          apply hnodup x
          rw [List.map_cons, hqq, List.dropLast_cons₂]
          rw [hqq] at hx
          exact List.mem_cons_of_mem _ hx
        have H := ih b1 s hlast2 hnodup2
        have hsl : sendLoop now lastP ((p, o) :: rest) b s = sendLoop now lastP rest b1 s := by
          simp [sendLoop, hco, hp]
        have haf : allFail now (((p, o) :: rest).map Prod.snd) b
            = allFail now (rest.map Prod.snd) b1 := by
          simp [allFail, hco]
        refine ⟨?_, ?_, ?_⟩
        · rw [hsl, haf]
          exact H.1
        · intro k c' l' hfs
          simp only [List.map_cons, firstSuccess, hco, Option.map_eq_some'] at hfs
          obtain ⟨⟨k0, c0, l0⟩, hfs0, heq⟩ := hfs
          simp only [Prod.mk.injEq] at heq
          obtain ⟨hk, hc, hl⟩ := heq
          subst hk; subst hc; subst hl
          obtain ⟨hok, htake⟩ := H.2.1 k0 c0 l0 hfs0
          refine ⟨?_, ?_⟩
          · rw [hsl]
            simpa [List.getD_cons_succ] using hok
          · rw [List.take_succ_cons, hsl]
            have hstep : sendLoop now lastP ((p, o) :: rest.take (k0 + 1)) b s
                = sendLoop now lastP (rest.take (k0 + 1)) b1 s := by
              simp [sendLoop, hco, hp]
            rw [hstep, htake]
        · intro hok
          rw [hsl] at hok ⊢
          exact H.2.2 hok

/-- Claim C4 counterexample: the source claim quantifies over every
non-empty protocol list, but the loop decides whether to propagate by
comparing the current protocol value with the last list element, so on
the duplicate list [h2, h2] whose first attempt fails and whose second
attempt would succeed, the dispatch propagates the first failure and
records a run-level failure even though not every protocol in the list
fails (the very next attempt succeeds and allFail is false) — and the
failing attempt it propagates sits on a non-final position. -/
theorem claim_C4_counterexample :
    (sendRequest 0 (CircuitBreaker.init 15 8000 5) initialStats ["h2", "h2"]
        [AttemptResult.failure ⟨some "ECONNRESET", none⟩, AttemptResult.success 200 5]).2.2
      = SendOutcome.err ⟨some "ECONNRESET", none⟩
    ∧ allFail 0
        [AttemptResult.failure ⟨some "ECONNRESET", none⟩, AttemptResult.success 200 5]
        (CircuitBreaker.init 15 8000 5) = false
    ∧ firstSuccess 0
        [AttemptResult.failure ⟨some "ECONNRESET", none⟩, AttemptResult.success 200 5]
        (CircuitBreaker.init 15 8000 5) = some (1, 200, 5)
    ∧ (sendRequest 0 (CircuitBreaker.init 15 8000 5) initialStats ["h2", "h2"]
        [AttemptResult.failure ⟨some "ECONNRESET", none⟩, AttemptResult.success 200 5]).2.1.failed
      = initialStats.failed + 1 := by
  exact ⟨rfl, rfl, rfl, rfl⟩

/-- Claim C4 witness: on [h2, h1.1] with h2 failing and h1.1 succeeding,
the dispatch returns the h1.1 outcome. -/
theorem claim_C4_witness :
    (sendLoop 0 "h1.1"
        [("h2", AttemptResult.failure ⟨some "ECONNRESET", none⟩),
         ("h1.1", AttemptResult.success 200 5)]
        (CircuitBreaker.init 15 8000 5) initialStats).2.2 = SendOutcome.ok 200 5 "h1.1" := by
  have h := claim_C4 0 (CircuitBreaker.init 15 8000 5) initialStats
    [("h2", AttemptResult.failure ⟨some "ECONNRESET", none⟩),
     ("h1.1", AttemptResult.success 200 5)]
    "h1.1" (by rfl) (by decide)
  exact (h.2.1 1 200 5 (by rfl)).1

theorem sendLoop_err_stats (now : Nat) (lastP : String) :
    ∀ (ps : List (String × AttemptResult)) (b : CircuitBreaker) (s : Stats) (e : JsError),
      (sendLoop now lastP ps b s).2.2 = SendOutcome.err e →
      (sendLoop now lastP ps b s).2.1 = recordFailure s e := by
  intro ps
  induction ps with
  | nil =>
    intro b s e h
    simp [sendLoop] at h
  | cons hd rest ih =>
    intro b s e h
    obtain ⟨p, o⟩ := hd
    rcases hco : callOutcome b now o with ⟨b1, cr⟩
    cases cr with
    | ok c l =>
      rw [show sendLoop now lastP ((p, o) :: rest) b s
          = (b1, recordSuccess s p c l, SendOutcome.ok c l p) by simp [sendLoop, hco]] at h
      simp at h
    | err e2 =>
      by_cases hp : p = lastP
      · rw [show sendLoop now lastP ((p, o) :: rest) b s
            = (b1, recordFailure s e2, SendOutcome.err e2) by simp [sendLoop, hco, hp]] at h ⊢
        simp at h
        rw [h]
      · rw [show sendLoop now lastP ((p, o) :: rest) b s
            = sendLoop now lastP rest b1 s by simp [sendLoop, hco, hp]] at h ⊢
        exact ih b1 s e h

set_option maxRecDepth 8192 in
/-- Claim C5: whenever the dispatch loop propagates a failure, exactly
one run-level failure is recorded — the failed counter grows by exactly
1 and the error histogram grows by exactly 1 at the signature of the
propagated error and nowhere else; a circuit-open rejection on the final
protocol is counted the same way (the breaker is untouched and the
supplied operation outcome o is never consulted, so no network attempt
happens); and the signature is the code of the error when that is a
non-empty string, else the message truncated to its first 20
characters when that prefix is non-empty, else UNKNOWN — for the
synthetic circuit-open error this is its truncated message. -/
theorem claim_C5 :
    (∀ (now : Nat) (lastP : String) (ps : List (String × AttemptResult))
        (b : CircuitBreaker) (s : Stats) (e : JsError),
      (sendLoop now lastP ps b s).2.2 = SendOutcome.err e →
        (sendLoop now lastP ps b s).2.1.failed = s.failed + 1
        ∧ (sendLoop now lastP ps b s).2.1.errors (errKey e) = s.errors (errKey e) + 1
        ∧ ∀ k2, k2 ≠ errKey e → (sendLoop now lastP ps b s).2.1.errors k2 = s.errors k2)
    ∧ (∀ (now : Nat) (p : String) (o : AttemptResult) (b : CircuitBreaker) (s : Stats),
        b.state = CBState.OPEN → now < b.nextAttempt →
        sendLoop now p [(p, o)] b s
          = (b, recordFailure s circuitOpenError, SendOutcome.err circuitOpenError))
    ∧ (∀ (c : String) (m : Option String), c ≠ "" → errKey ⟨some c, m⟩ = c)
    ∧ (∀ m : String, m.take 20 ≠ "" → errKey ⟨none, some m⟩ = m.take 20)
    ∧ errKey ⟨none, none⟩ = "UNKNOWN"
    ∧ errKey circuitOpenError = "Circuit OPEN - Waiti" := by
  refine ⟨?_, ?_, ?_, ?_, ?_, ?_⟩
  · intro now lastP ps b s e h
    have hs := sendLoop_err_stats now lastP ps b s e h
    rw [hs]
    refine ⟨rfl, by simp [recordFailure], ?_⟩
    intro k2 hk2
    simp [recordFailure, hk2]
  · intro now p o b s hst hlt
    have hg := gate_open_reject b now hst hlt
    simp [sendLoop, callOutcome, hg]
  · intro c m hc
    simp [errKey, jsOr, hc]
  · intro m hm
    simp [errKey, jsOr, hm]
  · rfl
  · rfl

/-- Claim C5 witness: a two-protocol dispatch whose final attempt fails
with code ETIMEDOUT records failed = 1 and one ETIMEDOUT histogram
entry, and a circuit-open rejection on a single-protocol dispatch is
recorded the same way without consulting the operation outcome. -/
theorem claim_C5_witness :
    (sendLoop 0 "h1.1"
        [("h2", AttemptResult.failure ⟨none, some "boom"⟩),
         ("h1.1", AttemptResult.failure ⟨some "ETIMEDOUT", none⟩)]
        (CircuitBreaker.init 15 8000 5) initialStats).2.1.failed = 1
    ∧ (sendLoop 0 "h1.1"
        [("h2", AttemptResult.failure ⟨none, some "boom"⟩),
         ("h1.1", AttemptResult.failure ⟨some "ETIMEDOUT", none⟩)]
        (CircuitBreaker.init 15 8000 5) initialStats).2.1.errors "ETIMEDOUT" = 1
    ∧ sendLoop 5 "h2" [("h2", AttemptResult.success 200 3)]
        ⟨0, 0, 15, 8000, 5, CBState.OPEN, 100⟩ initialStats
      = (⟨0, 0, 15, 8000, 5, CBState.OPEN, 100⟩, recordFailure initialStats circuitOpenError,
         SendOutcome.err circuitOpenError) := by
  refine ⟨?_, ?_, ?_⟩
  · exact (claim_C5.1 0 "h1.1"
      [("h2", AttemptResult.failure ⟨none, some "boom"⟩),
       ("h1.1", AttemptResult.failure ⟨some "ETIMEDOUT", none⟩)]
      (CircuitBreaker.init 15 8000 5) initialStats ⟨some "ETIMEDOUT", none⟩ rfl).1
  · exact (claim_C5.1 0 "h1.1"
      [("h2", AttemptResult.failure ⟨none, some "boom"⟩),
       ("h1.1", AttemptResult.failure ⟨some "ETIMEDOUT", none⟩)]
      (CircuitBreaker.init 15 8000 5) initialStats ⟨some "ETIMEDOUT", none⟩ rfl).2.1
  · exact claim_C5.2.1 5 "h2" (AttemptResult.success 200 3)
      ⟨0, 0, 15, 8000, 5, CBState.OPEN, 100⟩ initialStats rfl (by decide)

theorem streamStep_preserves (s : Stats) (o : StreamOutcome) :
    (streamStep s o).success = s.success ∧ (streamStep s o).failed = s.failed
    ∧ (streamStep s o).minLatency = s.minLatency
    ∧ (streamStep s o).maxLatency = s.maxLatency := by
  cases o <;> exact ⟨rfl, rfl, rfl, rfl⟩

theorem foldl_streamStep_preserves (streams : List StreamOutcome) :
    ∀ s : Stats,
      (streams.foldl streamStep s).success = s.success
      ∧ (streams.foldl streamStep s).failed = s.failed
      ∧ (streams.foldl streamStep s).minLatency = s.minLatency
      ∧ (streams.foldl streamStep s).maxLatency = s.maxLatency := by
  induction streams with
  | nil => intro s; exact ⟨rfl, rfl, rfl, rfl⟩
  | cons o os ih =>
    intro s
    have h1 := streamStep_preserves s o
    have h2 := ih (streamStep s o)
    simp only [List.foldl_cons]
    exact ⟨h2.1.trans h1.1, h2.2.1.trans h1.2.1,
           h2.2.2.1.trans h1.2.2.1, h2.2.2.2.trans h1.2.2.2⟩

theorem sendLoop_stats_mono (now : Nat) (lastP : String) :
    ∀ (ps : List (String × AttemptResult)) (b : CircuitBreaker) (s : Stats),
      s.success ≤ (sendLoop now lastP ps b s).2.1.success
      ∧ s.failed ≤ (sendLoop now lastP ps b s).2.1.failed
      ∧ (sendLoop now lastP ps b s).2.1.minLatency ≤ s.minLatency
      ∧ s.maxLatency ≤ (sendLoop now lastP ps b s).2.1.maxLatency := by
  intro ps
  induction ps with
  | nil =>
    intro b s
    simp [sendLoop]
  | cons hd rest ih =>
    intro b s
    obtain ⟨p, o⟩ := hd
    rcases hco : callOutcome b now o with ⟨b1, cr⟩
    cases cr with
    | ok c l =>
      rw [show sendLoop now lastP ((p, o) :: rest) b s
          = (b1, recordSuccess s p c l, SendOutcome.ok c l p) by simp [sendLoop, hco]]
      refine ⟨by simp [recordSuccess], by simp [recordSuccess], ?_, ?_⟩
      · simp only [recordSuccess]
        split
        · exact le_of_lt (by assumption)
        · exact le_refl _
      · simp only [recordSuccess]
        split
        · exact Nat.le_of_lt (by assumption)
        · exact Nat.le_refl _
    | err e =>
      by_cases hp : p = lastP
      · rw [show sendLoop now lastP ((p, o) :: rest) b s
            = (b1, recordFailure s e, SendOutcome.err e) by simp [sendLoop, hco, hp]]
        exact ⟨Nat.le_refl _, Nat.le_succ _, le_refl _, Nat.le_refl _⟩
      · rw [show sendLoop now lastP ((p, o) :: rest) b s
            = sendLoop now lastP rest b1 s by simp [sendLoop, hco, hp]]
        exact ih b1 s

/-- Claim C9: the run statistics are monotone.  A success record
increments the success counter by exactly 1, leaves the failed counter
alone, and changes minLatency and maxLatency only to the new latency —
downward and upward respectively, never the other way; a failure record
increments the failed counter by exactly 1 and touches none of the
other three fields; consequently across any whole dispatch run the
success and failed counters never decrease, minLatency never increases
and maxLatency never decreases; and the attack-mode path touches none
of these four fields at all.  No update resets any of them. -/
theorem claim_C9 :
    (∀ (s : Stats) (p : String) (c l : Nat),
      (recordSuccess s p c l).success = s.success + 1
      ∧ (recordSuccess s p c l).failed = s.failed
      ∧ (recordSuccess s p c l).minLatency ≤ s.minLatency
      ∧ s.maxLatency ≤ (recordSuccess s p c l).maxLatency
      ∧ ((recordSuccess s p c l).minLatency = s.minLatency
          ∨ (recordSuccess s p c l).minLatency = (l : WithTop Nat))
      ∧ ((recordSuccess s p c l).maxLatency = s.maxLatency
          ∨ (recordSuccess s p c l).maxLatency = l))
    ∧ (∀ (s : Stats) (e : JsError),
      (recordFailure s e).failed = s.failed + 1
      ∧ (recordFailure s e).success = s.success
      ∧ (recordFailure s e).minLatency = s.minLatency
      ∧ (recordFailure s e).maxLatency = s.maxLatency)
    ∧ (∀ (now : Nat) (lastP : String) (ps : List (String × AttemptResult))
        (b : CircuitBreaker) (s : Stats),
      s.success ≤ (sendLoop now lastP ps b s).2.1.success
      ∧ s.failed ≤ (sendLoop now lastP ps b s).2.1.failed
      ∧ (sendLoop now lastP ps b s).2.1.minLatency ≤ s.minLatency
      ∧ s.maxLatency ≤ (sendLoop now lastP ps b s).2.1.maxLatency)
    ∧ (∀ (s : Stats) (c : ConnOutcome),
      (rapidResetBatch s c).success = s.success
      ∧ (rapidResetBatch s c).failed = s.failed
      ∧ (rapidResetBatch s c).minLatency = s.minLatency
      ∧ (rapidResetBatch s c).maxLatency = s.maxLatency) := by
  refine ⟨?_, ?_, ?_, ?_⟩
  · intro s p c l
    refine ⟨rfl, rfl, ?_, ?_, ?_, ?_⟩
    · simp only [recordSuccess]
      split
      · exact le_of_lt (by assumption)
      · exact le_refl _
    · simp only [recordSuccess]
      split
      · exact Nat.le_of_lt (by assumption)
      · exact Nat.le_refl _
    · simp only [recordSuccess]
      split
      · exact Or.inr rfl
      · exact Or.inl rfl
    · simp only [recordSuccess]
      split
      · exact Or.inr rfl
      · exact Or.inl rfl
  · intro s e
    exact ⟨rfl, rfl, rfl, rfl⟩
  · exact fun now lastP ps b s => sendLoop_stats_mono now lastP ps b s
  · intro s c
    cases c with
    | connectFailed => exact ⟨rfl, rfl, rfl, rfl⟩
    | connected streams => exact foldl_streamStep_preserves streams s

/-- Claim C7: the protocol probe is total — every probe outcome,
including every failure, yields a protocol list, so it never throws to
its caller; on any failure the list is exactly [h1.1]; and on a
successful handshake the list always contains h2 and h1.1 and contains
h3 exactly when the alt-svc response header advertises h3. -/
theorem claim_C7 :
    detectProtocols ProbeResult.failure = ["h1.1"]
    ∧ ∀ alt : Option String,
        "h2" ∈ detectProtocols (ProbeResult.success alt)
        ∧ "h1.1" ∈ detectProtocols (ProbeResult.success alt)
        ∧ ("h3" ∈ detectProtocols (ProbeResult.success alt)
            ↔ altSvcAdvertisesH3 alt = true) := by
  refine ⟨rfl, ?_⟩
  intro alt
  by_cases h : altSvcAdvertisesH3 alt = true
  · have hT : detectProtocols (ProbeResult.success alt) = ["h3", "h2", "h1.1"] := by
      simp [detectProtocols, h, setAdd]
    rw [hT]
    refine ⟨by decide, by decide, ?_⟩
    simp [h]
  · have hF : altSvcAdvertisesH3 alt = false := by simpa using h
    have hT : detectProtocols (ProbeResult.success alt) = ["h2", "h1.1"] := by
      simp [detectProtocols, hF, setAdd]
    rw [hT]
    refine ⟨by decide, by decide, ?_⟩
    simp [hF]

theorem filter_isSome_getD {α β : Type} (f : α → Option β) (d : β) (l : List α) :
    ((l.map f).filter Option.isSome).map (fun o => o.getD d) = l.filterMap f := by
  induction l with
  | nil => rfl
  | cons a t ih =>
    cases hfa : f a <;> simp [List.filterMap_cons, hfa, ih]

/-- Claim C8 (amended): the protocol override parse splits the string on
commas and maps the (trimmed) tokens 1.1, 2 and 3 to h1.1, h2 and h3; an
unrecognized token is dropped silently exactly when it is not a property
name inherited from Object.prototype, while a token that is such a name
(toString, constructor, proto and the rest of objectPrototypeKeys)
survives filter(Boolean) as a truthy inherited member instead of being
dropped; and when the parsed list comes out empty the run proceeds with
exactly [h1.1], otherwise with the parsed list itself.  The source claim
that every unrecognized token is dropped is false: see the
counterexample. -/
theorem claim_C8 (s : String) :
    parseProtocols s = (jsSplit s ',').filterMap (fun t => protocolMap (jsTrim t))
    ∧ (parseProtocols s = [] → mainProtocols s = [ProtoEntry.protoName "h1.1"])
    ∧ (parseProtocols s ≠ [] → mainProtocols s = parseProtocols s)
    ∧ protocolMap "1.1" = some (ProtoEntry.protoName "h1.1")
    ∧ protocolMap "2" = some (ProtoEntry.protoName "h2")
    ∧ protocolMap "3" = some (ProtoEntry.protoName "h3")
    ∧ (∀ t, t ≠ "1.1" → t ≠ "2" → t ≠ "3" → t ∉ objectPrototypeKeys →
        protocolMap t = none)
    ∧ (∀ t ∈ objectPrototypeKeys, protocolMap t = some (ProtoEntry.inherited t)) := by
  refine ⟨?_, ?_, ?_, rfl, rfl, rfl, ?_, ?_⟩
  · exact filter_isSome_getD (fun p => protocolMap (jsTrim p)) (ProtoEntry.protoName "")
      (jsSplit s ',')
  · intro h
    simp [mainProtocols, h]
  · intro h
    simp [mainProtocols, List.length_eq_zero, h]
  · intro t h1 h2 h3 h4
    simp [protocolMap, h1, h2, h3, h4]
  · decide

/-- Claim C8 counterexample: the token toString is unrecognized by the
override table, yet the lookup finds the inherited Object.prototype
member, which is truthy and survives filter(Boolean) — the parse result
is non-empty, the token is not dropped, and the run proceeds with the
inherited junk entry rather than with the [h1.1] default the source
claim requires for an override with no recognized token. -/
theorem claim_C8_counterexample :
    parseProtocols "toString" = [ProtoEntry.inherited "toString"]
    ∧ mainProtocols "toString" = [ProtoEntry.inherited "toString"]
    ∧ mainProtocols "toString" ≠ [ProtoEntry.protoName "h1.1"] := by
  exact ⟨by decide, by decide, by decide⟩

/-- Claim C8 witness: the override string with an unrecognized
(non-prototype) middle token parses to [h1.1, h3] with that token
dropped, and an override string with no kept token at all falls back to
[h1.1]. -/
theorem claim_C8_witness :
    mainProtocols "1.1, x,3" = [ProtoEntry.protoName "h1.1", ProtoEntry.protoName "h3"]
    ∧ mainProtocols "9,," = [ProtoEntry.protoName "h1.1"]
    ∧ protocolMap "x" = none := by
  refine ⟨?_, ?_, ?_⟩
  · have h := (claim_C8 "1.1, x,3").2.2.1 (by decide)
    rw [h]
    decide
  · exact (claim_C8 "9,,").2.1 (by decide)
  · exact (claim_C8 "").2.2.2.2.2.2.1 "x" (by decide) (by decide) (by decide) (by decide)

/-- Claim C10: the attack-mode dispatch in main distinguishes only
whether the selector is the string none; for every other selector
value, including both advertised variants rapid-reset and madeyoureset,
it runs the same rapidResetAttack routine, so the two attack variants
are behaviorally identical. -/
theorem claim_C10 (a b : String) (ha : a ≠ "none") (hb : b ≠ "none") :
    attackRoutine a = some rapidResetBatch
    ∧ attackRoutine a = attackRoutine b
    ∧ attackRoutine "rapid-reset" = some rapidResetBatch
    ∧ attackRoutine "madeyoureset" = some rapidResetBatch
    ∧ attackRoutine "none" = none := by
  refine ⟨?_, ?_, rfl, rfl, rfl⟩
  · simp [attackRoutine, ha]
  · simp [attackRoutine, ha, hb]

/-- Claim C10 witness: the two advertised attack selectors resolve to
the same routine. -/
theorem claim_C10_witness :
    attackRoutine "rapid-reset" = attackRoutine "madeyoureset" := by
  have h := claim_C10 "rapid-reset" "madeyoureset" (by decide) (by decide)
  rw [h.1, h.2.2.2.1]

/-- Claim C6 evaluation at the failing input: an attempt whose request,
timeout or body drain throws opens its connection but never closes it —
the wrapped operation in sendRequest has no try/finally and its only
client.close() sits on the straight-line success path — while a
successful attempt closes what it opened.  The claim that every exit
path releases the connection is therefore violated by the error and
timeout paths in the code. -/
theorem claim_C6_eval :
    attemptOpensConnection (AttemptResult.failure ⟨some "UND_ERR_ABORTED", none⟩) = 1
    ∧ attemptClosesConnection (AttemptResult.failure ⟨some "UND_ERR_ABORTED", none⟩) = 0
    ∧ attemptClosesConnection (AttemptResult.success 200 5) = 1
    ∧ attemptOpensConnection (AttemptResult.success 200 5)
        = attemptClosesConnection (AttemptResult.success 200 5) := by
  exact ⟨rfl, rfl, rfl, rfl⟩
